import Mathlib

/-!
Verification of the emwrite service (emwrite_docker/emwrite.py).

This file gives a shallow embedding of the byte-level and arithmetic core of
the service — the grouped-tile container emitted by `write_sub_image_tiles`
inside the `alignedslice` endpoint, the two-offset random read performed by
`set_image` inside the `ngshard` endpoint, the metadata descriptor built by
`create_meta`, the `_downsample` shape computation, the Z-extent logic of
`ngshard`, and the HTTP error boundary of the three endpoints — and proves
or refutes the specified properties about them.

Machine integers are modelled as `Nat` (all quantities in the program are
non-negative sizes/offsets) except the Z coordinates of `ngshard`, which the
program manipulates as Python ints that can go negative, modelled as `Int`.
-/

namespace Emwrite

/-! ### Little-endian byte encoding

`int.to_bytes(8, byteorder="little")` in the source produces exactly 8 bytes,
least significant first; it is only called on values `< 2^64` (offsets into a
container and the slice dimensions).  `int.from_bytes(_, byteorder="little")`
is the inverse.  A byte is modelled as a `Nat` (< 256 whenever it comes from
an encoder). -/

/-- Encoding `leBytes k n`: the `k` little-endian base-256 digits of `n`
(`int.to_bytes(k, byteorder="little")`). -/
def leBytes : Nat → Nat → List Nat
  | 0, _ => []
  | k + 1, n => n % 256 :: leBytes k (n / 256)

/-- 8-byte little-endian encoding, as used for every header and offset field
of a grouped-tile container. -/
def le64 (n : Nat) : List Nat := leBytes 8 n

/-- Decoding `int.from_bytes(bs, byteorder="little")`. -/
def fromLE (bs : List Nat) : Nat := bs.foldr (fun b acc => b + 256 * acc) 0

@[simp] theorem leBytes_length (k n : Nat) : (leBytes k n).length = k := by
  induction k generalizing n with
  | zero => rfl
  | succ k ih => simp [leBytes, ih]

@[simp] theorem le64_length (n : Nat) : (le64 n).length = 8 := leBytes_length 8 n

theorem fromLE_leBytes (k n : Nat) (h : n < 256 ^ k) : fromLE (leBytes k n) = n := by
  induction k generalizing n with
  | zero =>
    interval_cases n
    rfl
  | succ k ih =>
    have hdiv : n / 256 < 256 ^ k := by
      rw [Nat.div_lt_iff_lt_mul (by norm_num)]
      calc n < 256 ^ (k + 1) := h
        _ = 256 ^ k * 256 := by ring
    simp only [leBytes, fromLE, List.foldr_cons]
    have : fromLE (leBytes k (n / 256)) = n / 256 := ih _ hdiv
    simp only [fromLE] at this
    rw [this]
    omega

theorem fromLE_le64 (n : Nat) (h : n < 2 ^ 64) : fromLE (le64 n) = n := by
  apply fromLE_leBytes
  calc n < 2 ^ 64 := h
    _ = 256 ^ 8 := by norm_num

/-! ### The grouped-tile container (`write_sub_image_tiles`)

For one super-block, the worker in `alignedslice` collects the PNG bytes of
each tile (y-outer, x-inner), records their lengths in `sizes`, and then
packs:

    final_binary  = width.to_bytes(8, 'little')
                  + height.to_bytes(8, 'little')
                  + shard_size.to_bytes(8, 'little')
    start_pos     = 24 + (len(sizes)+1)*8
    final_binary += start_pos.to_bytes(8, 'little')
    for val in sizes:
        start_pos += val
        final_binary += start_pos.to_bytes(8, 'little')
    final_binary += binary_volume          # the concatenated tile bytes

The PNG encoding of a tile is opaque here; the container builder is
parameterised by the list of per-tile byte payloads. -/

/-- The offset table values: starting at `pos`, the running start offset of
each payload followed by the end offset (one past the last byte).  Length is
`ps.length + 1`. -/
def offsets (pos : Nat) : List (List Nat) → List Nat
  | [] => [pos]
  | p :: ps => pos :: offsets (pos + p.length) ps

/-- Sum of the byte lengths of the first `i` payloads. -/
def presum (ps : List (List Nat)) (i : Nat) : Nat :=
  ((ps.take i).map List.length).sum

/-- Absolute start offset of tile `i` in a container holding `ps`
(for `i = ps.length`, the end offset `payload_end`). -/
def tileOffset (ps : List (List Nat)) (i : Nat) : Nat :=
  24 + (ps.length + 1) * 8 + presum ps i

/-- The grouped-tile container packed by `write_sub_image_tiles` for one
super-block, given the PNG payload of each tile in emission order. -/
def write_sub_image_tiles (width height shard_size : Nat)
    (ps : List (List Nat)) : List Nat :=
  le64 width ++ le64 height ++ le64 shard_size ++
    ((offsets (24 + (ps.length + 1) * 8) ps).map le64).flatten ++ ps.flatten

@[simp] theorem offsets_length (pos : Nat) (ps : List (List Nat)) :
    (offsets pos ps).length = ps.length + 1 := by
  induction ps generalizing pos with
  | nil => rfl
  | cons p ps ih => simp [offsets, ih]

theorem offsets_getD (pos : Nat) (ps : List (List Nat)) (i : Nat) (h : i ≤ ps.length) :
    (offsets pos ps).getD i 0 = pos + presum ps i := by
  induction ps generalizing pos i with
  | nil =>
    have : i = 0 := Nat.le_zero.mp h
    subst this
    simp [offsets, presum]
  | cons p ps ih =>
    cases i with
    | zero => simp [offsets, presum]
    | succ i =>
      simp only [offsets, List.getD_cons_succ]
      rw [ih _ _ (by simpa using h)]
      simp [presum, List.take_succ_cons]
      omega

theorem offsets_chain (pos : Nat) (ps : List (List Nat))
    (h : ∀ p ∈ ps, p ≠ []) : List.Chain' (· < ·) (offsets pos ps) := by
  induction ps generalizing pos with
  | nil => simp [offsets]
  | cons p ps ih =>
    have hp : p ≠ [] := h p (by simp)
    have hrest := ih (pos + p.length) (fun q hq => h q (by simp [hq]))
    cases ps with
    | nil =>
      simp only [offsets]
      constructor
      · have : 0 < p.length := List.length_pos.2 hp
        omega
      · simp [offsets]
    | cons q qs =>
      refine List.Chain'.cons ?_ hrest
      have : 0 < p.length := List.length_pos.2 hp
      simp [offsets]
      omega

theorem presum_zero (ps : List (List Nat)) : presum ps 0 = 0 := by
  simp [presum]

theorem presum_succ (p : List Nat) (ps : List (List Nat)) (i : Nat) :
    presum (p :: ps) (i + 1) = p.length + presum ps i := by
  simp [presum, List.take_succ_cons]

theorem presum_mono (ps : List (List Nat)) {i j : Nat} (h : i ≤ j) :
    presum ps i ≤ presum ps j := by
  induction ps generalizing i j with
  | nil => simp [presum]
  | cons p ps ih =>
    cases i with
    | zero => simp [presum_zero]
    | succ i =>
      cases j with
      | zero => omega
      | succ j =>
        rw [presum_succ, presum_succ]
        have := ih (Nat.succ_le_succ_iff.mp h)
        omega

theorem presum_all (ps : List (List Nat)) :
    presum ps ps.length = ps.flatten.length := by
  simp [presum, List.take_length, List.length_flatten]

/-- Byte length of the flattened 8-byte-encoded offset table. -/
theorem flatten_map_le64_length (L : List Nat) :
    ((L.map le64).flatten).length = 8 * L.length := by
  induction L with
  | nil => simp
  | cons a L ih => simp [ih]; ring

theorem drop_flatten_map_le64 (L : List Nat) (t : Nat) :
    ((L.map le64).flatten).drop (8 * t) = ((L.drop t).map le64).flatten := by
  induction L generalizing t with
  | nil => simp
  | cons a L ih =>
    cases t with
    | zero => simp
    | succ t =>
      simp only [List.map_cons, List.flatten_cons, List.drop_succ_cons]
      have h8 : 8 * (t + 1) = (le64 a).length + 8 * t := by simp; ring
      rw [h8, List.drop_append]
      exact ih t

/-- Reading 8 bytes at position `8*t` of the encoded offset table yields the
encoding of the `t`-th offset value. -/
theorem table_entry (L : List Nat) (t : Nat) (h : t < L.length) :
    (((L.map le64).flatten).drop (8 * t)).take 8 = le64 (L.getD t 0) := by
  rw [drop_flatten_map_le64, List.drop_eq_getElem_cons h]
  simp only [List.map_cons, List.flatten_cons]
  rw [List.take_append_of_le_length (by simp), List.take_of_length_le (by simp),
    List.getD_eq_getElem L 0 h]

/-- Auxiliary: dropping `n + m` elements of `A ++ B` when `A` has length `n`
drops `m` elements of `B`. -/
theorem drop_append_len {α : Type} {A : List α} {n : Nat} (B : List α) (m : Nat)
    (h : A.length = n) : (A ++ B).drop (n + m) = B.drop m := by
  subst h
  exact List.drop_append m

/-- Auxiliary: the byte length of the header plus offset table. -/
theorem header_table_length (width height shard_size : Nat)
    (ps : List (List Nat)) :
    (le64 width ++ le64 height ++ le64 shard_size ++
      ((offsets (24 + (ps.length + 1) * 8) ps).map le64).flatten).length =
      24 + (ps.length + 1) * 8 := by
  rw [List.length_append, List.length_append, List.length_append,
    flatten_map_le64_length, offsets_length, le64_length, le64_length, le64_length]
  omega

/-- Extracting `(ps.getD t []).length` bytes at position `presum ps t` of the
concatenated payloads yields payload `t`. -/
theorem flatten_extract (ps : List (List Nat)) (t : Nat) (h : t < ps.length) :
    ((ps.flatten).drop (presum ps t)).take (ps.getD t []).length = ps.getD t [] := by
  induction ps generalizing t with
  | nil => simp at h
  | cons p ps ih =>
    cases t with
    | zero =>
      simp only [presum_zero, List.drop_zero, List.flatten_cons, List.getD_cons_zero]
      rw [List.take_append_of_le_length (le_refl _), List.take_length]
    | succ t =>
      simp only [presum_succ, List.flatten_cons, List.getD_cons_succ]
      have hd : p.length + presum ps t = p.length + presum ps t := rfl
      rw [List.drop_append]
      exact ih t (by simpa using h)

/-- Total byte length of a grouped-tile container:
24-byte header + (k+1) 8-byte offsets + payload bytes. -/
theorem write_sub_image_tiles_length (width height shard_size : Nat)
    (ps : List (List Nat)) :
    (write_sub_image_tiles width height shard_size ps).length =
      24 + (ps.length + 1) * 8 + ps.flatten.length := by
  unfold write_sub_image_tiles
  rw [List.length_append, header_table_length]

theorem tileOffset_le_length (width height shard_size : Nat)
    (ps : List (List Nat)) (i : Nat) (h : i ≤ ps.length) :
    tileOffset ps i ≤ (write_sub_image_tiles width height shard_size ps).length := by
  rw [write_sub_image_tiles_length, tileOffset]
  have h1 := presum_mono ps h
  rw [presum_all] at h1
  omega

/-- Dropping the 24-byte header and the offset table exposes the payload
region. -/
theorem container_drop_payload (width height shard_size : Nat)
    (ps : List (List Nat)) (m : Nat) :
    (write_sub_image_tiles width height shard_size ps).drop
        (24 + (ps.length + 1) * 8 + m) = ps.flatten.drop m := by
  unfold write_sub_image_tiles
  exact drop_append_len _ m (header_table_length width height shard_size ps)

/-- Dropping the 24-byte header exposes the offset table (followed by the
payloads). -/
theorem container_drop_table (width height shard_size : Nat)
    (ps : List (List Nat)) (m : Nat) :
    (write_sub_image_tiles width height shard_size ps).drop (24 + m) =
      (((offsets (24 + (ps.length + 1) * 8) ps).map le64).flatten ++
        ps.flatten).drop m := by
  unfold write_sub_image_tiles
  rw [List.append_assoc (le64 width ++ le64 height ++ le64 shard_size)]
  exact drop_append_len _ m (by
    rw [List.length_append, List.length_append, le64_length, le64_length, le64_length])

/-- Reading 8 bytes at container offset `24 + 8*i` (for `i ≤ k`) yields the
little-endian encoding of `tileOffset ps i`. -/
theorem container_table_entry (width height shard_size : Nat)
    (ps : List (List Nat)) (i : Nat) (h : i ≤ ps.length) :
    ((write_sub_image_tiles width height shard_size ps).drop (24 + 8 * i)).take 8 =
      le64 (tileOffset ps i) := by
  rw [container_drop_table]
  have hlen : (((offsets (24 + (ps.length + 1) * 8) ps).map le64).flatten).length =
      8 * (ps.length + 1) := by
    rw [flatten_map_le64_length, offsets_length]
  rw [List.drop_append_eq_append_drop,
    List.take_append_of_le_length (by rw [List.length_drop, hlen]; omega),
    table_entry _ _ (by rw [offsets_length]; omega),
    offsets_getD _ _ _ h]
  rfl

theorem presum_getD (ps : List (List Nat)) (t : Nat) (h : t < ps.length) :
    presum ps (t + 1) = presum ps t + (ps.getD t []).length := by
  induction ps generalizing t with
  | nil => simp at h
  | cons p ps ih =>
    cases t with
    | zero => simp [presum_succ, presum_zero]
    | succ t =>
      simp only [presum_succ, List.getD_cons_succ]
      rw [ih t (by simpa using h)]
      omega

/-- Bytes 0..8, 8..16 and 16..24 of a container are the `le64` encodings of
`width`, `height` and `shard_size`. -/
theorem container_header (width height shard_size : Nat) (ps : List (List Nat)) :
    (write_sub_image_tiles width height shard_size ps).take 8 = le64 width ∧
    ((write_sub_image_tiles width height shard_size ps).drop 8).take 8 = le64 height ∧
    ((write_sub_image_tiles width height shard_size ps).drop 16).take 8 = le64 shard_size := by
  unfold write_sub_image_tiles
  rw [List.append_assoc (le64 width ++ le64 height ++ le64 shard_size),
    List.append_assoc (le64 width ++ le64 height), List.append_assoc (le64 width)]
  refine ⟨?_, ?_, ?_⟩
  · rw [List.take_append_of_le_length (by simp), List.take_of_length_le (by simp)]
  · rw [show ((le64 width ++ (le64 height ++ (le64 shard_size ++
        (((offsets (24 + (ps.length + 1) * 8) ps).map le64).flatten ++ ps.flatten)))).drop 8) =
        ((le64 width ++ (le64 height ++ (le64 shard_size ++
        (((offsets (24 + (ps.length + 1) * 8) ps).map le64).flatten ++ ps.flatten)))).drop
          ((le64 width).length + 0)) by rw [le64_length],
      List.drop_append, List.drop_zero,
      List.take_append_of_le_length (by simp), List.take_of_length_le (by simp)]
  · rw [show (16 : Nat) = (le64 width).length + 8 by rw [le64_length], List.drop_append,
      show (8 : Nat) = (le64 height).length + 0 by rw [le64_length], List.drop_append,
      List.drop_zero,
      List.take_append_of_le_length (by simp), List.take_of_length_le (by simp)]

/-- The byte range `[tileOffset ps j, tileOffset ps (j+1))` of a container
holds exactly payload `j`. -/
theorem container_tile_bytes (width height shard_size : Nat)
    (ps : List (List Nat)) (j : Nat) (hj : j < ps.length) :
    ((write_sub_image_tiles width height shard_size ps).drop (tileOffset ps j)).take
        (tileOffset ps (j + 1) - tileOffset ps j) = ps.getD j [] := by
  have hdiff : tileOffset ps (j + 1) - tileOffset ps j = (ps.getD j []).length := by
    unfold tileOffset
    rw [presum_getD ps j hj]
    omega
  rw [hdiff]
  show ((write_sub_image_tiles width height shard_size ps).drop
      (24 + (ps.length + 1) * 8 + presum ps j)).take (ps.getD j []).length = _
  rw [container_drop_payload]
  exact flatten_extract ps j hj

/-- The final offset entry equals the container's total byte size. -/
theorem container_payload_end (width height shard_size : Nat) (ps : List (List Nat)) :
    tileOffset ps ps.length = (write_sub_image_tiles width height shard_size ps).length := by
  rw [write_sub_image_tiles_length]
  unfold tileOffset
  rw [presum_all]

/-- C1.  For every grouped-tile container emitted by `write_sub_image_tiles`
for a super-block holding payloads `ps` (k = `ps.length` tiles, each PNG
payload non-empty), the container starts with `width`, `height`,
`shard_size` as unsigned little-endian 64-bit integers at offsets 0, 8, 16;
the `k+1` offset entries start at `payload_start_0 = 24 + (k+1)*8`, decode
from bytes `[24+8i, 24+8i+8)`, and are strictly increasing; tile `j`
occupies exactly `[payload_start_j, payload_start_(j+1))`; and the final
entry equals the total container size. -/
theorem container_layout (width height shard_size : Nat) (ps : List (List Nat))
    (i j : Nat)
    (hw : width < 2 ^ 64) (hh : height < 2 ^ 64) (hs : shard_size < 2 ^ 64)
    (hlen : (write_sub_image_tiles width height shard_size ps).length < 2 ^ 64)
    (hne : ∀ p ∈ ps, p ≠ [])
    (hi : i ≤ ps.length) (hj : j < ps.length) :
    fromLE ((write_sub_image_tiles width height shard_size ps).take 8) = width ∧
    fromLE (((write_sub_image_tiles width height shard_size ps).drop 8).take 8) = height ∧
    fromLE (((write_sub_image_tiles width height shard_size ps).drop 16).take 8) = shard_size ∧
    tileOffset ps 0 = 24 + (ps.length + 1) * 8 ∧
    fromLE (((write_sub_image_tiles width height shard_size ps).drop (24 + 8 * i)).take 8) =
      tileOffset ps i ∧
    List.Chain' (· < ·) (offsets (24 + (ps.length + 1) * 8) ps) ∧
    ((write_sub_image_tiles width height shard_size ps).drop (tileOffset ps j)).take
        (tileOffset ps (j + 1) - tileOffset ps j) = ps.getD j [] ∧
    tileOffset ps ps.length = (write_sub_image_tiles width height shard_size ps).length := by
  obtain ⟨h1, h2, h3⟩ := container_header width height shard_size ps
  have hoff : tileOffset ps i < 2 ^ 64 :=
    lt_of_le_of_lt (tileOffset_le_length width height shard_size ps i hi) hlen
  refine ⟨?_, ?_, ?_, ?_, ?_, ?_, ?_, ?_⟩
  · rw [h1, fromLE_le64 _ hw]
  · rw [h2, fromLE_le64 _ hh]
  · rw [h3, fromLE_le64 _ hs]
  · simp [tileOffset, presum_zero]
  · rw [container_table_entry _ _ _ _ _ hi, fromLE_le64 _ hoff]
  · exact offsets_chain _ _ hne
  · exact container_tile_bytes width height shard_size ps j hj
  · exact container_payload_end width height shard_size ps

/-- Witness for C1 at a concrete container: `width = 2`, `height = 3`,
`shard_size = 1024`, two payloads `[9]` and `[8,7]`, offset entry `i = 2`
and tile `j = 1`. -/
theorem container_layout_witness :
    fromLE ((write_sub_image_tiles 2 3 1024 [[9], [8, 7]]).take 8) = 2 ∧
    fromLE (((write_sub_image_tiles 2 3 1024 [[9], [8, 7]]).drop 8).take 8) = 3 ∧
    fromLE (((write_sub_image_tiles 2 3 1024 [[9], [8, 7]]).drop 16).take 8) = 1024 ∧
    tileOffset [[9], [8, 7]] 0 = 24 + ([[9], [8, 7]].length + 1) * 8 ∧
    fromLE (((write_sub_image_tiles 2 3 1024 [[9], [8, 7]]).drop (24 + 8 * 2)).take 8) =
      tileOffset [[9], [8, 7]] 2 ∧
    List.Chain' (· < ·) (offsets (24 + ([[9], [8, 7]].length + 1) * 8) [[9], [8, 7]]) ∧
    ((write_sub_image_tiles 2 3 1024 [[9], [8, 7]]).drop (tileOffset [[9], [8, 7]] 1)).take
        (tileOffset [[9], [8, 7]] (1 + 1) - tileOffset [[9], [8, 7]] 1) =
      [[9], [8, 7]].getD 1 [] ∧
    tileOffset [[9], [8, 7]] [[9], [8, 7]].length =
      (write_sub_image_tiles 2 3 1024 [[9], [8, 7]]).length :=
  container_layout 2 3 1024 [[9], [8, 7]] 2 1 (by decide) (by decide) (by decide)
    (by decide) (by decide) (by decide) (by decide)

/-- The two-offset random read performed by `set_image` inside `ngshard`:
download bytes `[24 + 8t, 24 + 8t + 16)` of the container (the Google
`download_as_string(start, end)` range is end-inclusive, whence the
`end_index = start_index + 16 - 1` in the source), decode `start` from the
first 8 bytes and `end` as the next 8 bytes minus one, then download the
inclusive byte range `[start, end]`. -/
def set_image_read (container : List Nat) (t : Nat) : List Nat :=
  let im_range := (container.drop (24 + t * 8)).take 16
  let start := fromLE (im_range.take 8)
  let endv := fromLE (im_range.drop 8) - 1
  (container.drop start).take (endv + 1 - start)

/-- C2.  Write-then-random-read round trip: for every tile index `t` of a
container written by `write_sub_image_tiles`, the two-offset read of
`set_image` returns bytes identical to the PNG payload appended at
position `t`. -/
theorem set_image_roundtrip (width height shard_size : Nat) (ps : List (List Nat))
    (t : Nat) (ht : t < ps.length)
    (hlen : (write_sub_image_tiles width height shard_size ps).length < 2 ^ 64) :
    set_image_read (write_sub_image_tiles width height shard_size ps) t =
      ps.getD t [] := by
  simp only [set_image_read]
  have hrw : 24 + t * 8 = 24 + 8 * t := by ring
  rw [hrw]
  have htake8 : (((write_sub_image_tiles width height shard_size ps).drop
      (24 + 8 * t)).take 16).take 8 = le64 (tileOffset ps t) := by
    rw [List.take_take]
    norm_num
    exact container_table_entry width height shard_size ps t (le_of_lt ht)
  have hdrop8 : (((write_sub_image_tiles width height shard_size ps).drop
      (24 + 8 * t)).take 16).drop 8 = le64 (tileOffset ps (t + 1)) := by
    rw [List.drop_take, List.drop_drop,
      show 24 + 8 * t + 8 = 24 + 8 * (t + 1) by ring]
    norm_num
    exact container_table_entry width height shard_size ps (t + 1) (by omega)
  rw [htake8, hdrop8]
  have hofft : tileOffset ps t < 2 ^ 64 :=
    lt_of_le_of_lt (tileOffset_le_length width height shard_size ps t (le_of_lt ht)) hlen
  have hofft1 : tileOffset ps (t + 1) < 2 ^ 64 :=
    lt_of_le_of_lt (tileOffset_le_length width height shard_size ps (t + 1) (by omega)) hlen
  rw [fromLE_le64 _ hofft, fromLE_le64 _ hofft1]
  have hpos : 1 ≤ tileOffset ps (t + 1) := by
    unfold tileOffset
    omega
  rw [show tileOffset ps (t + 1) - 1 + 1 = tileOffset ps (t + 1) by omega]
  exact container_tile_bytes width height shard_size ps t ht

/-- Witness for C2 at a concrete container: reading tile 1 of the container
holding payloads `[9]` and `[8,7]` returns `[8,7]`. -/
theorem set_image_roundtrip_witness :
    set_image_read (write_sub_image_tiles 2 3 1024 [[9], [8, 7]]) 1 =
      [[9], [8, 7]].getD 1 [] :=
  set_image_roundtrip 2 3 1024 [[9], [8, 7]] 1 (by decide) (by decide)

/-! ### Tile cropping (`curr_im.crop` in `write_sub_image_tiles`)

The producer builds each tile with
`curr_im.crop((chunkx, chunky, chunkx+shard_size, chunky+shard_size))`.
`PIL.Image.crop((left, upper, right, lower))` always returns an image of the
full box dimensions `(right-left) × (lower-upper)`; where the box extends
beyond the source image, PIL fills the missing area with zero (the C
`ImagingCrop` routine allocates the box-sized output, zero-fills it when the
box is not contained in the source, then copies the intersection).  The
subsequent CLAHE call and PNG round trip preserve the image dimensions. -/

/-- An 8-bit grayscale image: dimensions plus a pixel lookup. -/
structure PilImage where
  width : Nat
  height : Nat
  px : Nat → Nat → Nat

/-- Model of `PIL.Image.crop((left, upper, right, lower))`: box-sized output, source
pixels inside the box, zero outside the source bounds. -/
def crop (im : PilImage) (left upper right lower : Nat) : PilImage :=
  { width := right - left
    height := lower - upper
    px := fun x y =>
      if left + x < im.width ∧ upper + y < im.height then
        im.px (left + x) (upper + y)
      else 0 }

/-- The tile the producer cuts at chunk position `(chunkx, chunky)`
(source: `curr_im.crop((chunkx, chunky, chunkx+shard_size, chunky+shard_size))`). -/
def producer_tile (im : PilImage) (shard_size chunkx chunky : Nat) : PilImage :=
  crop im chunkx chunky (chunkx + shard_size) (chunky + shard_size)

/-- A concrete 1000×1000 aligned slice (pixel values irrelevant). -/
def testSlice : PilImage := ⟨1000, 1000, fun _ _ => 0⟩

/-- Counterexample to C3 as stated: for a 1000×1000 slice and
`shard_size = 1024`, the tile for cube column 0, row 0 decodes to a full
1024×1024 image (PIL pads the out-of-bounds crop area), not to the clipped
`min(1024, W - 0·1024) × min(1024, H - 0·1024) = 1000×1000` image the claim
requires. -/
theorem producer_tile_not_clipped :
    (producer_tile testSlice 1024 (0 * 1024) (0 * 1024)).width = 1024 ∧
    (producer_tile testSlice 1024 (0 * 1024) (0 * 1024)).height = 1024 ∧
    (producer_tile testSlice 1024 (0 * 1024) (0 * 1024)).width ≠
      min 1024 (1000 - 0 * 1024) := by
  refine ⟨rfl, rfl, ?_⟩
  decide

/-- C3 amended: every tile the producer writes — including tiles on the
right/bottom edge — has exactly `shard_size × shard_size` pixels; the region
of an edge tile that falls outside the slice bounds is zero-filled by the
crop (so edge tiles are zero-padded full tiles, never clipped). -/
theorem producer_tile_dims (im : PilImage) (shard_size cx cy x y : Nat) :
    (producer_tile im shard_size (cx * shard_size) (cy * shard_size)).width = shard_size ∧
    (producer_tile im shard_size (cx * shard_size) (cy * shard_size)).height = shard_size ∧
    (producer_tile im shard_size (cx * shard_size) (cy * shard_size)).px x y =
      (if cx * shard_size + x < im.width ∧ cy * shard_size + y < im.height then
        im.px (cx * shard_size + x) (cy * shard_size + y)
      else 0) := by
  refine ⟨?_, ?_, rfl⟩ <;> simp [producer_tile, crop]

/-! ### `_downsample` shape behaviour (`ngshard`)

`_downsample(vol)` either calls `ndimage.interpolation.zoom(vol, 0.5,
order=1)` on the whole volume (every axis ≤ 256) or allocates
`np.zeros((round(x/2), round(y/2), round(z/2)))` and fills it piecewise from
256³ pieces.  Python 3's `round` rounds halves to the nearest even integer
(banker's rounding), and `scipy.ndimage.zoom` computes its output shape as
`int(round(dim * 0.5))` per axis — the same rounding.  Only the shape layer
is modelled; the linear interpolation itself operates on floats. -/

/-- Python 3 `round(n / 2)` for a natural `n`: round-half-to-even. -/
def pyRoundHalf (n : Nat) : Nat := if n % 4 = 1 then n / 2 else (n + 1) / 2

/-- Output shape of `ndimage.interpolation.zoom(vol, 0.5, order=1)`:
each axis maps to `int(round(dim * 0.5))`. -/
def zoomHalfShape (x y z : Nat) : Nat × Nat × Nat :=
  (pyRoundHalf x, pyRoundHalf y, pyRoundHalf z)

/-- Shape behaviour of `_downsample`: a single whole-volume zoom when every
axis is ≤ 256, otherwise the `np.zeros((round(x/2), round(y/2), round(z/2)))`
target assembled from 256³ pieces. -/
def downsampleShape (x y z : Nat) : Nat × Nat × Nat :=
  if x ≤ 256 ∧ y ≤ 256 ∧ z ≤ 256 then zoomHalfShape x y z
  else (pyRoundHalf x, pyRoundHalf y, pyRoundHalf z)

/-- Half-up rounding of `n / 2` (`n + 0.5` always rounds to `n + 1`), the
rounding the claim asserts. -/
def roundHalfUpDiv2 (n : Nat) : Nat := (n + 1) / 2

/-- Counterexample to C7 as stated: a 261³ cube downsamples to 130³
(Python `round(130.5) = 130`, half-to-even), not to the 131³ that half-up
rounding would give. -/
theorem downsample_not_half_up :
    downsampleShape 261 261 261 ≠
      (roundHalfUpDiv2 261, roundHalfUpDiv2 261, roundHalfUpDiv2 261) ∧
    downsampleShape 261 261 261 = (130, 130, 130) := by
  constructor <;> decide

/-- C7 amended: one `_downsample` step returns a cube of shape
`(round(X/2), round(Y/2), round(Z/2))` where `round` is Python's
round-half-to-even; when every axis is ≤ 256 the whole cube goes through a
single zoom call; otherwise the cube is assembled from 256³ pieces, and the
target slice `[xi/2 : (xi+256)/2)` (clamped to the target extent) of each
piece `[xi : xi+256)` has exactly the length of the downsampled piece. -/
theorem downsample_shape_spec (x y z x2 y2 z2 xi x3 : Nat)
    (hsmall : x2 ≤ 256 ∧ y2 ≤ 256 ∧ z2 ≤ 256)
    (hxi : xi % 256 = 0) (hlt : xi < x3) :
    downsampleShape x y z = (pyRoundHalf x, pyRoundHalf y, pyRoundHalf z) ∧
    downsampleShape x2 y2 z2 = zoomHalfShape x2 y2 z2 ∧
    min ((xi + 256) / 2) (pyRoundHalf x3) - xi / 2 =
      pyRoundHalf (min (xi + 256) x3 - xi) := by
  refine ⟨?_, ?_, ?_⟩
  · unfold downsampleShape zoomHalfShape
    split <;> rfl
  · unfold downsampleShape
    rw [if_pos hsmall]
  · simp only [pyRoundHalf]
    split <;> split <;> omega

/-- Witness for C7 amended: a 10³ cube goes through the single-zoom branch,
and the piece at `xi = 256` of a 300-wide axis lands in a target slice of
the downsampled piece's length. -/
theorem downsample_shape_spec_witness :
    downsampleShape 261 261 261 = (pyRoundHalf 261, pyRoundHalf 261, pyRoundHalf 261) ∧
    downsampleShape 10 10 10 = zoomHalfShape 10 10 10 ∧
    min ((256 + 256) / 2) (pyRoundHalf 300) - 256 / 2 =
      pyRoundHalf (min (256 + 256) 300 - 256) :=
  downsample_shape_spec 261 261 261 10 10 10 256 300 (by decide) (by decide) (by decide)

/-! ### The metadata descriptor (`create_meta`)

`create_meta(width, height, minz, maxz, shard_size, isRaw, res)` first pads
`width`, `height` and `maxz` in place (each dimension is rounded up so that
`width`, `height`, `maxz+1` become multiples of the shard size — the source
mixes the `shard_size` parameter in the modulus with a literal `1024` in the
increment), then returns either the single-scale raw dictionary or the
six-scale jpeg dictionary. -/

structure ShardSpec where
  atType : String
  hash : String
  minishard_bits : Nat
  minishard_index_encoding : String
  preshift_bits : Nat
  shard_bits : Nat
deriving DecidableEq, Repr

structure ScaleMeta where
  chunk_sizes : List (List Nat)
  encoding : String
  key : String
  resolution : List Nat
  sharding : Option ShardSpec
  size : List Nat
  realsize : List Nat
  offset : List Nat
  realoffset : List Nat
deriving DecidableEq, Repr

structure VolumeMeta where
  atType : String
  data_type : String
  num_channels : Nat
  scales : List ScaleMeta
  type : String
deriving DecidableEq, Repr

/-- The in-place padding applied to `width` and `height`:
`if (width % shard_size) > 0: width += (1024 - (width % shard_size))`. -/
def roundPad (shard_size n : Nat) : Nat :=
  if n % shard_size > 0 then n + (1024 - n % shard_size) else n

/-- The in-place padding applied to `maxz`:
`if ((maxz+1) % shard_size) > 0: maxz += (1024 - ((maxz+1) % shard_size))`. -/
def roundPadZ (shard_size maxz : Nat) : Nat :=
  if (maxz + 1) % shard_size > 0 then maxz + (1024 - (maxz + 1) % shard_size) else maxz

/-- The scale key `f"{r}.0x{r}.0x{r}.0"`. -/
def keyFor (r : Nat) : String :=
  toString r ++ ".0x" ++ toString r ++ ".0x" ++ toString r ++ ".0"

/-- The sharding block appearing on the jpeg scales 0..2, with the given
`shard_bits`. -/
def shardSpecBits (b : Nat) : ShardSpec :=
  { atType := "neuroglancer_uint64_sharded_v1"
    hash := "identity"
    minishard_bits := 0
    minishard_index_encoding := "gzip"
    preshift_bits := 6
    shard_bits := b }

/-- The descriptor built by `create_meta`. -/
def create_meta (width0 height0 minz maxz0 shard_size : Nat) (isRaw : Bool)
    (res : Nat) : VolumeMeta :=
  let width := roundPad shard_size width0
  let height := roundPad shard_size height0
  let maxz := roundPadZ shard_size maxz0
  if isRaw then
    { atType := "neuroglancer_multiscale_volume"
      data_type := "uint8"
      num_channels := 1
      scales := [
        { chunk_sizes := [[128, 128, 128]]
          encoding := "raw"
          key := keyFor res
          resolution := [res, res, res]
          sharding := none
          size := [width, height, maxz + 1]
          realsize := [width, height, maxz - minz + 1]
          offset := [0, 0, 0]
          realoffset := [0, 0, minz] }]
      type := "image" }
  else
    { atType := "neuroglancer_multiscale_volume"
      data_type := "uint8"
      num_channels := 1
      scales := [
        { chunk_sizes := [[64, 64, 64]]
          encoding := if isRaw then "raw" else "jpeg"
          key := keyFor res
          resolution := [res, res, res]
          sharding := some (shardSpecBits 27)
          size := [width, height, maxz + 1]
          realsize := [width, height, maxz - minz + 1]
          offset := [0, 0, 0]
          realoffset := [0, 0, minz] },
        { chunk_sizes := [[64, 64, 64]]
          encoding := if isRaw then "raw" else "jpeg"
          key := keyFor (res * 2)
          resolution := [res * 2, res * 2, res * 2]
          sharding := some (shardSpecBits 24)
          size := [width / 2 + 1, height / 2 + 1, (maxz + 1) / 2 + 1]
          realsize := [width / 2, height / 2, (maxz - minz + 1) / 2]
          offset := [0, 0, 0]
          realoffset := [0, 0, minz / 2] },
        { chunk_sizes := [[64, 64, 64]]
          encoding := if isRaw then "raw" else "jpeg"
          key := keyFor (res * 4)
          resolution := [res * 4, res * 4, res * 4]
          sharding := some (shardSpecBits 21)
          size := [width / 4 + 2, height / 4 + 2, (maxz + 1) / 4 + 2]
          realsize := [width / 4, height / 4, (maxz - minz + 1) / 4]
          offset := [0, 0, 0]
          realoffset := [0, 0, minz / 4] },
        { chunk_sizes := [[64, 64, 64]]
          encoding := if isRaw then "raw" else "jpeg"
          key := keyFor (res * 8)
          resolution := [res * 8, res * 8, res * 8]
          sharding := none
          size := [width / 8 + 4, height / 8 + 4, (maxz + 1) / 8 + 4]
          realsize := [width / 8, height / 8, (maxz - minz + 1) / 8]
          offset := [0, 0, 0]
          realoffset := [0, 0, minz / 8] },
        { chunk_sizes := [[64, 64, 64]]
          encoding := if isRaw then "raw" else "jpeg"
          key := keyFor (res * 16)
          resolution := [res * 16, res * 16, res * 16]
          sharding := none
          size := [width / 16 + 8, height / 16 + 8, (maxz + 1) / 16 + 8]
          realsize := [width / 16, height / 16, (maxz - minz + 1) / 16]
          offset := [0, 0, 0]
          realoffset := [0, 0, minz / 16] },
        { chunk_sizes := [[64, 64, 64]]
          encoding := if isRaw then "raw" else "jpeg"
          key := keyFor (res * 32)
          resolution := [res * 32, res * 32, res * 32]
          sharding := none
          size := [width / 32 + 16, height / 32 + 16, (maxz + 1) / 32 + 16]
          realsize := [width / 32, height / 32, (maxz - minz + 1) / 32]
          offset := [0, 0, 0]
          realoffset := [0, 0, minz / 16] }]
      type := "image" }

/-- A scale filled with sentinel values, used as the `getD` default. -/
def noScale : ScaleMeta := ⟨[], "", "", [], none, [], [], [], []⟩

/-- Scale `l` of a descriptor. -/
def scaleAt (m : VolumeMeta) (l : Nat) : ScaleMeta := m.scales.getD l noScale

/-- The sharding object of lossy scale `l`: present with `shard_bits`
27, 24, 21 on scales 0, 1, 2; absent on scales 3..5. -/
def shardingForLevel (l : Nat) : Option ShardSpec :=
  if l < 3 then some (shardSpecBits (27 - 3 * l)) else none

/-- C4.  The lossy descriptor has exactly six scales; scale `l` has
resolution `[res·2^l]×3`, key `"{res·2^l}.0x{res·2^l}.0x{res·2^l}.0"`,
chunk sizes `[[64,64,64]]`, encoding `"jpeg"`, and a sharded-v1 block with
`minishard_bits = 0`, `preshift_bits = 6`, gzip minishard index and
`shard_bits` 27, 24, 21 on scales 0..2, no sharding on scales 3..5.  The
lossless descriptor has exactly one scale with chunk sizes
`[[128,128,128]]`, encoding `"raw"` and no sharding. -/
theorem create_meta_scales_spec (width height minz maxz res l : Nat) (hl : l < 6) :
    (create_meta width height minz maxz 1024 false res).scales.length = 6 ∧
    (scaleAt (create_meta width height minz maxz 1024 false res) l).resolution =
      [res * 2 ^ l, res * 2 ^ l, res * 2 ^ l] ∧
    (scaleAt (create_meta width height minz maxz 1024 false res) l).key =
      keyFor (res * 2 ^ l) ∧
    (scaleAt (create_meta width height minz maxz 1024 false res) l).chunk_sizes =
      [[64, 64, 64]] ∧
    (scaleAt (create_meta width height minz maxz 1024 false res) l).encoding = "jpeg" ∧
    (scaleAt (create_meta width height minz maxz 1024 false res) l).sharding =
      shardingForLevel l ∧
    (create_meta width height minz maxz 1024 true res).scales.length = 1 ∧
    (scaleAt (create_meta width height minz maxz 1024 true res) 0).chunk_sizes =
      [[128, 128, 128]] ∧
    (scaleAt (create_meta width height minz maxz 1024 true res) 0).encoding = "raw" ∧
    (scaleAt (create_meta width height minz maxz 1024 true res) 0).sharding = none := by
  interval_cases l <;>
    simp [create_meta, scaleAt, shardingForLevel, keyFor]

/-- Witness for C4 at scale 2 of a concrete request. -/
theorem create_meta_scales_spec_witness :
    (create_meta 5 7 3 9 1024 false 8).scales.length = 6 ∧
    (scaleAt (create_meta 5 7 3 9 1024 false 8) 2).resolution =
      [8 * 2 ^ 2, 8 * 2 ^ 2, 8 * 2 ^ 2] ∧
    (scaleAt (create_meta 5 7 3 9 1024 false 8) 2).key = keyFor (8 * 2 ^ 2) ∧
    (scaleAt (create_meta 5 7 3 9 1024 false 8) 2).chunk_sizes = [[64, 64, 64]] ∧
    (scaleAt (create_meta 5 7 3 9 1024 false 8) 2).encoding = "jpeg" ∧
    (scaleAt (create_meta 5 7 3 9 1024 false 8) 2).sharding = shardingForLevel 2 ∧
    (create_meta 5 7 3 9 1024 true 8).scales.length = 1 ∧
    (scaleAt (create_meta 5 7 3 9 1024 true 8) 0).chunk_sizes = [[128, 128, 128]] ∧
    (scaleAt (create_meta 5 7 3 9 1024 true 8) 0).encoding = "raw" ∧
    (scaleAt (create_meta 5 7 3 9 1024 true 8) 0).sharding = none :=
  create_meta_scales_spec 5 7 3 9 8 2 (by decide)

/-- The divisor actually applied to `minz` in lossy scale `l`'s
`realoffset`: `2^l` for scales 0..4, but `16` again on scale 5 (the source
repeats `minz // 16` on the last scale). -/
def realoffsetDivisor (l : Nat) : Nat := if l = 5 then 16 else 2 ^ l

/-- Counterexample to C5 as stated: at `minz = 32`, scale 5 of the lossy
descriptor records `realoffset = [0, 0, 32 // 16] = [0, 0, 2]`, not
`[0, 0, 32 // 2^5] = [0, 0, 1]`. -/
theorem create_meta_scale5_realoffset :
    (scaleAt (create_meta 0 0 32 0 1024 false 8) 5).realoffset = [0, 0, 2] ∧
    (scaleAt (create_meta 0 0 32 0 1024 false 8) 5).realoffset ≠ [0, 0, 32 / 2 ^ 5] := by
  constructor <;> decide

/-- C5 amended: every lossy scale has `offset = [0,0,0]`, and `realoffset`
is `[0, 0, minz // 2^l]` for scales 0..4 but `[0, 0, minz // 16]` on scale 5
(the source's copy-paste divisor). -/
theorem create_meta_realoffset_spec (width height minz maxz res l : Nat) (hl : l < 6) :
    (scaleAt (create_meta width height minz maxz 1024 false res) l).offset = [0, 0, 0] ∧
    (scaleAt (create_meta width height minz maxz 1024 false res) l).realoffset =
      [0, 0, minz / realoffsetDivisor l] := by
  interval_cases l <;>
    simp [create_meta, scaleAt, realoffsetDivisor]

/-- Witness for C5 amended, at scale 5 with `minz = 32`. -/
theorem create_meta_realoffset_spec_witness :
    (scaleAt (create_meta 0 0 32 0 1024 false 8) 5).offset = [0, 0, 0] ∧
    (scaleAt (create_meta 0 0 32 0 1024 false 8) 5).realoffset =
      [0, 0, 32 / realoffsetDivisor 5] :=
  create_meta_realoffset_spec 0 0 32 0 8 5 (by decide)

/-- Per-scale additive padding of the `size` field: 0, 1, 2, 4, 8, 16. -/
def sizeExtra (l : Nat) : Nat := [0, 1, 2, 4, 8, 16].getD l 0

/-- Counterexample to C6 as stated: for a 1000×1000 request with
`minz = 0`, `maxz = 10`, scale 0's `realsize` is `[1024, 1024, 1024]` —
computed from the padded dimensions — not the unpadded
`[1000, 1000, 11]` the claim requires. -/
theorem create_meta_realsize_padded :
    (scaleAt (create_meta 1000 1000 0 10 1024 false 8) 0).realsize =
      [1024, 1024, 1024] ∧
    (scaleAt (create_meta 1000 1000 0 10 1024 false 8) 0).realsize ≠
      [1000 / 2 ^ 0, 1000 / 2 ^ 0, (10 - 0 + 1) / 2 ^ 0] := by
  constructor <;> decide

/-- C6 amended: with `W' = W`, `H' = H`, `Z' = maxz+1` each rounded up to
the next multiple of 1024, lossy scale `l` records
`size = [W'/2^l + extra_l, H'/2^l + extra_l, Z'/2^l + extra_l]`
(`extra_l ∈ {0,1,2,4,8,16}`) — and `realsize` is computed from the same
padded dimensions: `realsize = [W'/2^l, H'/2^l, (Z' - minz)/2^l]`, not from
the original request dimensions. -/
theorem create_meta_size_realsize_spec (width height minz maxz res l : Nat)
    (hmz : minz ≤ maxz) (hl : l < 6) :
    (scaleAt (create_meta width height minz maxz 1024 false res) l).size =
      [1024 * ((width + 1023) / 1024) / 2 ^ l + sizeExtra l,
       1024 * ((height + 1023) / 1024) / 2 ^ l + sizeExtra l,
       1024 * ((maxz + 1 + 1023) / 1024) / 2 ^ l + sizeExtra l] ∧
    (scaleAt (create_meta width height minz maxz 1024 false res) l).realsize =
      [1024 * ((width + 1023) / 1024) / 2 ^ l,
       1024 * ((height + 1023) / 1024) / 2 ^ l,
       (1024 * ((maxz + 1 + 1023) / 1024) - minz) / 2 ^ l] := by
  have hW : roundPad 1024 width = 1024 * ((width + 1023) / 1024) := by
    unfold roundPad; split <;> omega
  have hH : roundPad 1024 height = 1024 * ((height + 1023) / 1024) := by
    unfold roundPad; split <;> omega
  have hZ1 : roundPadZ 1024 maxz + 1 = 1024 * ((maxz + 1 + 1023) / 1024) := by
    unfold roundPadZ; split <;> omega
  have hZ2 : roundPadZ 1024 maxz - minz + 1 = 1024 * ((maxz + 1 + 1023) / 1024) - minz := by
    unfold roundPadZ; split <;> omega
  interval_cases l <;>
    simp [create_meta, scaleAt, sizeExtra, hW, hH, hZ1, hZ2]

/-- Witness for C6 amended: the 1000×1000, `minz = 0`, `maxz = 10` request,
scale 1. -/
theorem create_meta_size_realsize_spec_witness :
    (scaleAt (create_meta 1000 1000 0 10 1024 false 8) 1).size =
      [1024 * ((1000 + 1023) / 1024) / 2 ^ 1 + sizeExtra 1,
       1024 * ((1000 + 1023) / 1024) / 2 ^ 1 + sizeExtra 1,
       1024 * ((10 + 1 + 1023) / 1024) / 2 ^ 1 + sizeExtra 1] ∧
    (scaleAt (create_meta 1000 1000 0 10 1024 false 8) 1).realsize =
      [1024 * ((1000 + 1023) / 1024) / 2 ^ 1,
       1024 * ((1000 + 1023) / 1024) / 2 ^ 1,
       (1024 * ((10 + 1 + 1023) / 1024) - 0) / 2 ^ 1] :=
  create_meta_size_realsize_spec 1000 1000 0 10 8 1 (by decide) (by decide)

/-! ### Error taxonomy and the HTTP boundary

The spec's error kinds, as an inductive carrying the Python exception
message.  The source raises `RuntimeError("shard size must be
1024x1024x1024")` for the shard-size check (a RequestMalformed kind), gets
a not-found error from the blob store for a missing container (a
StorageFailure kind), and `ValueError` / `IndexError` from numpy for a
non-positive cube extent (a ComputeFailure kind). -/

inductive Err where
  | requestMalformed : String → Err
  | storageFailure : String → Err
  | decodeFailure : String → Err
  | computeFailure : String → Err
  | writerFailure : String → Err
deriving DecidableEq, Repr

/-- Formatting `str(e)`: the exception message. -/
def Err.message : Err → String
  | requestMalformed m => m
  | storageFailure m => m
  | decodeFailure m => m
  | computeFailure m => m
  | writerFailure m => m

/-- Formatting `traceback.format_exc()`: the full stack trace ending in the exception
message (only its shape — a trace, not the bare message — matters here). -/
def format_exc (e : Err) : String :=
  "Traceback (most recent call last):\n" ++ e.message

structure HttpResponse where
  status : Nat
  body : String
  contentType : Option String
deriving DecidableEq, Repr

/-- Response `make_response("success".encode())` with `Content-Type: text/html`. -/
def successResponse : HttpResponse :=
  { status := 200, body := "success", contentType := some "text/html" }

/-- Response `Response(msg, 400)`. -/
def errorResponse (msg : String) : HttpResponse :=
  { status := 400, body := msg, contentType := none }

/-- Whether an `Except` computation succeeded. -/
def isOkE {ε β : Type} : Except ε β → Bool
  | .ok _ => true
  | .error _ => false

/-- Whether a computation failed specifically with a RequestMalformed
error. -/
def failsAsMalformed {β : Type} : Except Err β → Bool
  | .error (.requestMalformed _) => true
  | _ => false

/-! ### The `ngshard` cube extent (`set_image` over `[zstart, zfinish]`)

`zstart = max(shard_size*tile_chunk[2], minz)`,
`zfinish = min(maxz, zstart+shard_size-1)`; `set_image(zstart)` fetches the
first container, allocates `np.zeros((zfinish-zstart+1, H, W))` and stores
slice `s` at plane `s - zstart`; the remaining slices `zstart+1..zfinish`
are fetched by the worker pool.  `np.zeros` raises `ValueError` on a
negative first dimension, and the plane store `vol3d[slice-zstart]` raises
`IndexError` on a zero-sized one.  The blob store is modelled as a partial
map from slice number to the (decoded) tile. -/

def ngshard_zstart (shard_size cz minz : Int) : Int := max (shard_size * cz) minz

def ngshard_zfinish (shard_size cz minz maxz : Int) : Int :=
  min maxz (ngshard_zstart shard_size cz minz + shard_size - 1)

def ngshard_nz (shard_size cz minz maxz : Int) : Int :=
  ngshard_zfinish shard_size cz minz maxz - ngshard_zstart shard_size cz minz + 1

/-- Fetch the container tile of one slice; a missing blob surfaces as the
blob store's not-found error. -/
def fetch_tile {α : Type} (store : Int → Option α) (s : Int) : Except Err α :=
  match store s with
  | none => .error (.storageFailure "blob not found")
  | some t => .ok t

/-- Fetch `n` consecutive slices starting at `zstart`; plane `p` of the
result holds slice `zstart + p`. -/
def fetch_planes {α : Type} (store : Int → Option α) (zstart : Int) :
    Nat → Except Err (List α)
  | 0 => .ok []
  | n + 1 =>
    match fetch_tile store zstart, fetch_planes store (zstart + 1) n with
    | .ok t, .ok rest => .ok (t :: rest)
    | .error e, _ => .error e
    | .ok _, .error e => .error e

/-- The cube assembly of `ngshard`: fetch slice `zstart` first (as
`set_image(zstart)` does), fail like `np.zeros` / the plane store on a
non-positive Z extent, then fetch every slice of `[zstart, zfinish]` into
its plane. -/
def assemble_cube {α : Type} (shard_size cz minz maxz : Int)
    (store : Int → Option α) : Except Err (List α) :=
  match fetch_tile store (ngshard_zstart shard_size cz minz) with
  | .error e => .error e
  | .ok _ =>
    if ngshard_nz shard_size cz minz maxz < 0 then
      .error (.computeFailure "negative dimensions are not allowed")
    else if ngshard_nz shard_size cz minz maxz = 0 then
      .error (.computeFailure "index 0 is out of bounds for axis 0 with size 0")
    else
      fetch_planes store (ngshard_zstart shard_size cz minz)
        (ngshard_nz shard_size cz minz maxz).toNat

/-- A store holding tiles exactly for slices 0..10 (value: a tile id). -/
def sliceStore10 : Int → Option Nat :=
  fun s => if 0 ≤ s ∧ s ≤ 10 then some 7 else none

theorem fetch_planes_ok {α : Type} (store : Int → Option α) (f : Nat → α)
    (zstart : Int) (n : Nat)
    (h : ∀ p : Nat, p < n → store (zstart + p) = some (f p)) :
    fetch_planes store zstart n = .ok ((List.range n).map f) := by
  induction n generalizing zstart f with
  | zero => rfl
  | succ n ih =>
    have h0 : store zstart = some (f 0) := by
      have := h 0 (by omega)
      simpa using this
    have hrest : fetch_planes store (zstart + 1) n =
        .ok ((List.range n).map fun p => f (p + 1)) := by
      apply ih
      intro p hp
      have := h (p + 1) (by omega)
      rw [show zstart + 1 + (p : Int) = zstart + ((p : Nat) + 1 : Nat) by push_cast; ring]
      exact this
    unfold fetch_planes
    rw [show fetch_tile store zstart = .ok (f 0) by simp [fetch_tile, h0], hrest]
    simp [List.range_succ_eq_map]

theorem getD_map_range {α : Type} (f : Nat → α) (n i : Nat) (d : α) (h : i < n) :
    ((List.range n).map f).getD i d = f i := by
  rw [List.getD_eq_getElem _ d (by simpa using h)]
  simp

/-- Counterexample to C8 as stated: for `cz = 1`, `minz = 0`, `maxz = 10`
(so `zstart = 1024 > 10 = zfinish`), the request does fail — but with the
blob store's not-found error on the first slice fetch, not with a
RequestMalformed error (no Z-range validation exists in `ngshard`). -/
theorem ngshard_oob_fails_storage :
    ngshard_zfinish 1024 1 0 10 < ngshard_zstart 1024 1 0 ∧
    assemble_cube 1024 1 0 10 sliceStore10 =
      .error (.storageFailure "blob not found") ∧
    failsAsMalformed (assemble_cube 1024 1 0 10 sliceStore10) = false := by
  refine ⟨by decide, rfl, rfl⟩

/-- C8 amended: `ngshard` computes `zstart = max(cz*shard_size, minz)` and
`zfinish = min(maxz, zstart + shard_size - 1)` and builds a cube of
`Nz = zfinish - zstart + 1` Z-planes with slice `s` stored at plane
`s - zstart`; whenever `zfinish < zstart`, the request fails — the first
slice fetch hits a missing blob or the non-positive Z extent raises — rather
than succeeding (the failure is a storage/compute error, not a
RequestMalformed validation error). -/
theorem ngshard_cube_extent {α β : Type} (shard_size cz minz maxz : Int)
    (store : Int → Option α) (f : Nat → α) (s : Int)
    (cz2 minz2 maxz2 : Int) (store2 : Int → Option β)
    (hstore : ∀ p : Nat, (p : Int) < ngshard_nz shard_size cz minz maxz →
      store (ngshard_zstart shard_size cz minz + p) = some (f p))
    (hs1 : ngshard_zstart shard_size cz minz ≤ s)
    (hs2 : s ≤ ngshard_zfinish shard_size cz minz maxz)
    (hneg : ngshard_zfinish shard_size cz2 minz2 maxz2 <
      ngshard_zstart shard_size cz2 minz2) :
    ngshard_zstart shard_size cz minz = max (cz * shard_size) minz ∧
    ngshard_zfinish shard_size cz minz maxz =
      min maxz (max (cz * shard_size) minz + shard_size - 1) ∧
    assemble_cube shard_size cz minz maxz store =
      .ok ((List.range (ngshard_nz shard_size cz minz maxz).toNat).map f) ∧
    ((List.range (ngshard_nz shard_size cz minz maxz).toNat).map f).length =
      (ngshard_nz shard_size cz minz maxz).toNat ∧
    ((List.range (ngshard_nz shard_size cz minz maxz).toNat).map f).getD
        (s - ngshard_zstart shard_size cz minz).toNat (f 0) =
      f (s - ngshard_zstart shard_size cz minz).toNat ∧
    store s = some (f (s - ngshard_zstart shard_size cz minz).toNat) ∧
    isOkE (assemble_cube shard_size cz2 minz2 maxz2 store2) = false := by
  have hfz : ngshard_zstart shard_size cz minz ≤
      ngshard_zfinish shard_size cz minz maxz := le_trans hs1 hs2
  have hnz : 0 < ngshard_nz shard_size cz minz maxz := by
    unfold ngshard_nz
    omega
  have hidx : (s - ngshard_zstart shard_size cz minz).toNat <
      (ngshard_nz shard_size cz minz maxz).toNat := by
    unfold ngshard_nz at *
    omega
  refine ⟨?_, ?_, ?_, ?_, ?_, ?_, ?_⟩
  · unfold ngshard_zstart
    rw [Int.mul_comm]
  · unfold ngshard_zfinish ngshard_zstart
    rw [Int.mul_comm]
  · have h0 : store (ngshard_zstart shard_size cz minz) = some (f 0) := by
      have := hstore 0 (by omega)
      simpa using this
    unfold assemble_cube
    rw [show fetch_tile store (ngshard_zstart shard_size cz minz) = .ok (f 0) by
      simp [fetch_tile, h0]]
    rw [if_neg (by omega), if_neg (by omega)]
    apply fetch_planes_ok
    intro p hp
    exact hstore p (by omega)
  · simp
  · exact getD_map_range f _ _ _ hidx
  · have heq : ngshard_zstart shard_size cz minz +
        ((s - ngshard_zstart shard_size cz minz).toNat : Int) = s := by omega
    have hp := hstore (s - ngshard_zstart shard_size cz minz).toNat (by omega)
    rw [heq] at hp
    exact hp
  · have hnz2 : ngshard_nz shard_size cz2 minz2 maxz2 ≤ 0 := by
      unfold ngshard_nz
      omega
    unfold assemble_cube
    cases hst : store2 (ngshard_zstart shard_size cz2 minz2) with
    | none => simp [fetch_tile, hst, isOkE]
    | some t =>
      by_cases hlt : ngshard_nz shard_size cz2 minz2 maxz2 < 0
      · simp [fetch_tile, hst, hlt, isOkE]
      · have h0 : ngshard_nz shard_size cz2 minz2 maxz2 = 0 := by omega
        simp [fetch_tile, hst, hlt, h0, isOkE]

/-- Witness for C8 amended: `cz = 0`, `minz = 0`, `maxz = 10`, slices 0..10
present, probe slice `s = 4`; and the out-of-range cube `cz2 = 1` fails. -/
theorem ngshard_cube_extent_witness :
    ngshard_zstart 1024 0 0 = max (0 * 1024) 0 ∧
    ngshard_zfinish 1024 0 0 10 = min 10 (max (0 * 1024) 0 + 1024 - 1) ∧
    assemble_cube 1024 0 0 10 sliceStore10 =
      .ok ((List.range (ngshard_nz 1024 0 0 10).toNat).map fun _ => 7) ∧
    ((List.range (ngshard_nz 1024 0 0 10).toNat).map fun _ => (7 : Nat)).length =
      (ngshard_nz 1024 0 0 10).toNat ∧
    ((List.range (ngshard_nz 1024 0 0 10).toNat).map fun _ => (7 : Nat)).getD
        ((4 : Int) - ngshard_zstart 1024 0 0).toNat 7 = 7 ∧
    sliceStore10 4 = some 7 ∧
    isOkE (assemble_cube 1024 1 0 10 sliceStore10) = false :=
  ngshard_cube_extent 1024 0 0 10 sliceStore10 (fun _ => 7) 4 1 0 10 sliceStore10
    (by
      intro p hp
      unfold ngshard_nz ngshard_zfinish ngshard_zstart at hp
      simp only [sliceStore10]
      rw [if_pos (by unfold ngshard_zstart; omega)])
    (by decide) (by decide) (by decide)

/-! ### The three endpoints

Each endpoint wraps its whole body in `try/except`; success returns
`make_response("success")` with `Content-Type: text/html`, failure returns
`Response(..., 400)` — with `str(e)` as the body in `alignedslice` and
`ngmeta` and `traceback.format_exc()` in `ngshard`.  The fallible I/O and
compute steps are the parameters; the control flow is the embedding. -/

/-- The shared `failure` cell of `alignedslice`: each worker that fails
overwrites it with its exception; after joining, `None` means every tile
job succeeded, otherwise the last written error is re-raised.  `jobs` lists
the job outcomes in cell-write order. -/
def workerFailure (jobs : List (Except Err Unit)) : Option Err :=
  jobs.foldl (fun acc j => match j with | .error e => some e | .ok _ => acc) none

/-- The `alignedslice` endpoint: fetch + warp the source slice, upload the
thumbnail, run the tile-container workers, re-raise any worker failure; any
exception becomes `Response(str(e), 400)`. -/
def alignedslice (fetchSrc uploadThumb : Except Err Unit)
    (jobs : List (Except Err Unit)) : HttpResponse :=
  match fetchSrc with
  | .error e => errorResponse e.message
  | .ok _ =>
    match uploadThumb with
    | .error e => errorResponse e.message
    | .ok _ =>
      match workerFailure jobs with
      | some e => errorResponse e.message
      | none => successResponse

/-- One object store for the descriptors (key to descriptor). -/
abbrev MetaStore := List (String × VolumeMeta)

/-- Abstract blob upload for `ngmeta`: the upload fails exactly on the keys
in `failKeys` (a storage error), otherwise the object is recorded. -/
def gcsUpload (failKeys : List String) (store : MetaStore) (key : String)
    (v : VolumeMeta) : Except Err MetaStore :=
  if failKeys.contains key then .error (.storageFailure ("upload failed: " ++ key))
  else .ok ((key, v) :: store)

/-- The `ngmeta` endpoint: validate the shard size, upload the lossy
descriptor to `neuroglancer/jpeg/info`, then — when `writeRaw` — upload the
lossless descriptor to `neuroglancer/raw/info`.  Returns the response and
the store state left behind. -/
def ngmeta (width height minz maxz res shard_size : Nat) (writeRaw : Bool)
    (failKeys : List String) (store : MetaStore) : HttpResponse × MetaStore :=
  if shard_size ≠ 1024 then
    (errorResponse "shard size must be 1024x1024x1024", store)
  else
    match gcsUpload failKeys store "neuroglancer/jpeg/info"
        (create_meta width height minz maxz shard_size false res) with
    | .error e => (errorResponse e.message, store)
    | .ok store1 =>
      if writeRaw then
        match gcsUpload failKeys store1 "neuroglancer/raw/info"
            (create_meta width height minz maxz shard_size true res) with
        | .error e => (errorResponse e.message, store1)
        | .ok store2 => (successResponse, store2)
      else (successResponse, store1)

/-- The `ngshard` endpoint: validate the shard size, assemble the cube,
write the pyramid; any exception becomes
`Response(traceback.format_exc(), 400)`. -/
def ngshard (shard_size : Nat) (assembleOutcome writeOutcome : Except Err Unit) :
    HttpResponse :=
  if shard_size ≠ 1024 then
    errorResponse (format_exc (.requestMalformed "shard size must be 1024x1024x1024"))
  else
    match assembleOutcome with
    | .error e => errorResponse (format_exc e)
    | .ok _ =>
      match writeOutcome with
      | .error e => errorResponse (format_exc e)
      | .ok _ => successResponse

theorem workerFailure_aux (jobs : List (Except Err Unit)) (acc : Option Err) :
    jobs.foldl (fun acc j => match j with | .error e => some e | .ok _ => acc) acc =
      none ↔ acc = none ∧ ∀ j ∈ jobs, j = .ok () := by
  induction jobs generalizing acc with
  | nil => simp
  | cons j js ih =>
    cases j with
    | ok u =>
      cases u
      simp only [List.foldl_cons, ih, List.mem_cons]
      constructor
      · rintro ⟨h1, h2⟩
        exact ⟨h1, fun j hj => by
          rcases hj with h | h
          · simp [h]
          · exact h2 j h⟩
      · rintro ⟨h1, h2⟩
        exact ⟨h1, fun j hj => h2 j (Or.inr hj)⟩
    | error e =>
      simp only [List.foldl_cons, ih, List.mem_cons]
      constructor
      · rintro ⟨h1, _⟩
        exact absurd h1 (by simp)
      · rintro ⟨_, h2⟩
        exact absurd (h2 (.error e) (Or.inl rfl)) (by simp)

theorem workerFailure_eq_none (jobs : List (Except Err Unit)) :
    workerFailure jobs = none ↔ ∀ j ∈ jobs, j = .ok () := by
  unfold workerFailure
  rw [workerFailure_aux]
  simp

theorem alignedslice_boundary (fs ut : Except Err Unit) (jobs : List (Except Err Unit)) :
    alignedslice fs ut jobs = successResponse ∨
      (alignedslice fs ut jobs).status = 400 := by
  cases fs with
  | error e => right; rfl
  | ok u =>
    cases u
    cases ut with
    | error e => right; rfl
    | ok u =>
      cases u
      cases h : workerFailure jobs with
      | none => left; simp [alignedslice, h]
      | some e => right; simp [alignedslice, h, errorResponse]

theorem alignedslice_success_iff (fs ut : Except Err Unit)
    (jobs : List (Except Err Unit)) :
    alignedslice fs ut jobs = successResponse ↔
      fs = .ok () ∧ ut = .ok () ∧ workerFailure jobs = none := by
  cases fs with
  | error e => simp [alignedslice, errorResponse, successResponse]
  | ok u =>
    cases u
    cases ut with
    | error e => simp [alignedslice, errorResponse, successResponse]
    | ok u =>
      cases u
      cases h : workerFailure jobs with
      | none => simp [alignedslice, h]
      | some e => simp [alignedslice, h, errorResponse, successResponse]

theorem ngmeta_boundary (width height minz maxz res : Nat) (writeRaw : Bool)
    (failKeys : List String) (store : MetaStore) :
    (ngmeta width height minz maxz res 1024 writeRaw failKeys store).1 =
      successResponse ∨
    (ngmeta width height minz maxz res 1024 writeRaw failKeys store).1.status = 400 := by
  cases h1 : failKeys.contains "neuroglancer/jpeg/info" with
  | true =>
    have hm1 : "neuroglancer/jpeg/info" ∈ failKeys := by simpa using h1
    right
    simp [ngmeta, gcsUpload, hm1, errorResponse]
  | false =>
    have hm1 : "neuroglancer/jpeg/info" ∉ failKeys := by simpa using h1
    cases writeRaw with
    | false => left; simp [ngmeta, gcsUpload, hm1]
    | true =>
      cases h2 : failKeys.contains "neuroglancer/raw/info" with
      | true =>
        have hm2 : "neuroglancer/raw/info" ∈ failKeys := by simpa using h2
        right
        simp [ngmeta, gcsUpload, hm1, hm2, errorResponse]
      | false =>
        have hm2 : "neuroglancer/raw/info" ∉ failKeys := by simpa using h2
        left
        simp [ngmeta, gcsUpload, hm1, hm2]

theorem ngmeta_success_iff (width height minz maxz res : Nat) (writeRaw : Bool)
    (failKeys : List String) (store : MetaStore) :
    (ngmeta width height minz maxz res 1024 writeRaw failKeys store).1 =
      successResponse ↔
      (failKeys.contains "neuroglancer/jpeg/info" = false ∧
        (writeRaw = false ∨ failKeys.contains "neuroglancer/raw/info" = false)) := by
  cases h1 : failKeys.contains "neuroglancer/jpeg/info" with
  | true =>
    have hm1 : "neuroglancer/jpeg/info" ∈ failKeys := by simpa using h1
    simp [ngmeta, gcsUpload, hm1, errorResponse, successResponse]
  | false =>
    have hm1 : "neuroglancer/jpeg/info" ∉ failKeys := by simpa using h1
    cases writeRaw with
    | false => simp [ngmeta, gcsUpload, hm1]
    | true =>
      cases h2 : failKeys.contains "neuroglancer/raw/info" with
      | true =>
        have hm2 : "neuroglancer/raw/info" ∈ failKeys := by simpa using h2
        simp [ngmeta, gcsUpload, hm1, hm2, errorResponse, successResponse]
      | false =>
        have hm2 : "neuroglancer/raw/info" ∉ failKeys := by simpa using h2
        simp [ngmeta, gcsUpload, hm1, hm2]

theorem ngshard_boundary (asm wrt : Except Err Unit) :
    ngshard 1024 asm wrt = successResponse ∨ (ngshard 1024 asm wrt).status = 400 := by
  cases asm with
  | error e => right; rfl
  | ok u =>
    cases u
    cases wrt with
    | error e => right; rfl
    | ok u => cases u; left; rfl

/-- C9.  Every endpoint is a strict error boundary: a request that
processes successfully returns HTTP 200, body `"success"`, Content-Type
`text/html`; any error raised inside the request — the shard-size check on
`ngmeta`/`ngshard`, a failed upload, a worker error re-raised after
joining — returns HTTP 400, whose body is the error message for
`alignedslice` and `ngmeta` but the full stack trace for `ngshard`. -/
theorem endpoint_error_boundary
    (fetchSrc uploadThumb : Except Err Unit) (jobs jobs2 : List (Except Err Unit))
    (e e2 : Err) (shard_size width height minz maxz res : Nat) (writeRaw : Bool)
    (failKeys failKeys2 : List String) (store : MetaStore)
    (asm asm2 wrt : Except Err Unit)
    (hw : workerFailure jobs2 = some e)
    (hsh : shard_size ≠ 1024)
    (hasm : asm2 = .error e2)
    (hjk : failKeys2.contains "neuroglancer/jpeg/info" = true) :
    (alignedslice fetchSrc uploadThumb jobs = successResponse ∨
      (alignedslice fetchSrc uploadThumb jobs).status = 400) ∧
    (alignedslice fetchSrc uploadThumb jobs = successResponse ↔
      fetchSrc = .ok () ∧ uploadThumb = .ok () ∧ workerFailure jobs = none) ∧
    alignedslice (.ok ()) (.ok ()) jobs2 = errorResponse e.message ∧
    (ngmeta width height minz maxz res shard_size writeRaw failKeys store).1 =
      errorResponse "shard size must be 1024x1024x1024" ∧
    ((ngmeta width height minz maxz res 1024 writeRaw failKeys store).1 =
        successResponse ∨
      (ngmeta width height minz maxz res 1024 writeRaw failKeys store).1.status = 400) ∧
    ((ngmeta width height minz maxz res 1024 writeRaw failKeys store).1 =
        successResponse ↔
      (failKeys.contains "neuroglancer/jpeg/info" = false ∧
        (writeRaw = false ∨ failKeys.contains "neuroglancer/raw/info" = false))) ∧
    (ngmeta width height minz maxz res 1024 writeRaw failKeys2 store).1 =
      errorResponse ("upload failed: " ++ "neuroglancer/jpeg/info") ∧
    ngshard shard_size asm wrt =
      errorResponse
        (format_exc (.requestMalformed "shard size must be 1024x1024x1024")) ∧
    ngshard 1024 asm2 wrt = errorResponse (format_exc e2) ∧
    (ngshard 1024 asm wrt = successResponse ∨ (ngshard 1024 asm wrt).status = 400) ∧
    ngshard 1024 (.ok ()) (.ok ()) = successResponse := by
  refine ⟨alignedslice_boundary fetchSrc uploadThumb jobs,
    alignedslice_success_iff fetchSrc uploadThumb jobs, ?_, ?_,
    ngmeta_boundary width height minz maxz res writeRaw failKeys store,
    ngmeta_success_iff width height minz maxz res writeRaw failKeys store, ?_, ?_,
    ?_, ngshard_boundary asm wrt, rfl⟩
  · simp [alignedslice, hw]
  · simp [ngmeta, hsh]
  · have hm : "neuroglancer/jpeg/info" ∈ failKeys2 := by simpa using hjk
    simp [ngmeta, gcsUpload, hm, Err.message]
  · simp [ngshard, hsh]
  · subst hasm
    simp [ngshard]

/-- Witness for C9: concrete outcomes — a failed worker job, shard size
512, a jpeg-info upload failure, and a failed cube assembly. -/
theorem endpoint_error_boundary_witness :
    (alignedslice (.ok ()) (.ok ()) [] = successResponse ∨
      (alignedslice (.ok ()) (.ok ()) []).status = 400) ∧
    (alignedslice (.ok ()) (.ok ()) [] = successResponse ↔
      (Except.ok () : Except Err Unit) = .ok () ∧
        (Except.ok () : Except Err Unit) = .ok () ∧ workerFailure [] = none) ∧
    alignedslice (.ok ()) (.ok ()) [.error (.storageFailure "w1")] =
      errorResponse (Err.storageFailure "w1").message ∧
    (ngmeta 0 0 0 0 0 512 true [] []).1 =
      errorResponse "shard size must be 1024x1024x1024" ∧
    ((ngmeta 0 0 0 0 0 1024 true [] []).1 = successResponse ∨
      (ngmeta 0 0 0 0 0 1024 true [] []).1.status = 400) ∧
    ((ngmeta 0 0 0 0 0 1024 true [] []).1 = successResponse ↔
      (([] : List String).contains "neuroglancer/jpeg/info" = false ∧
        (true = false ∨ ([] : List String).contains "neuroglancer/raw/info" = false))) ∧
    (ngmeta 0 0 0 0 0 1024 true ["neuroglancer/jpeg/info"] []).1 =
      errorResponse ("upload failed: " ++ "neuroglancer/jpeg/info") ∧
    ngshard 512 (.ok ()) (.ok ()) =
      errorResponse
        (format_exc (.requestMalformed "shard size must be 1024x1024x1024")) ∧
    ngshard 1024 (.error (.computeFailure "w2")) (.ok ()) =
      errorResponse (format_exc (.computeFailure "w2")) ∧
    (ngshard 1024 (.ok ()) (.ok ()) = successResponse ∨
      (ngshard 1024 (.ok ()) (.ok ())).status = 400) ∧
    ngshard 1024 (.ok ()) (.ok ()) = successResponse :=
  endpoint_error_boundary (.ok ()) (.ok ()) [] [.error (.storageFailure "w1")]
    (.storageFailure "w1") (.computeFailure "w2") 512 0 0 0 0 0 true []
    ["neuroglancer/jpeg/info"] [] (.ok ()) (.error (.computeFailure "w2")) (.ok ())
    rfl (by decide) rfl rfl

/-- C10.  `ngmeta` is not atomic on failure: the lossy descriptor goes to
`neuroglancer/jpeg/info` before the lossless upload is attempted, so when
`writeRaw` is requested and the lossless upload fails, the endpoint
answers HTTP 400 while the lossy descriptor is already in the store. -/
theorem ngmeta_lossy_written_on_raw_failure (width height minz maxz res : Nat)
    (failKeys : List String) (store : MetaStore)
    (hjpeg : failKeys.contains "neuroglancer/jpeg/info" = false)
    (hraw : failKeys.contains "neuroglancer/raw/info" = true) :
    (ngmeta width height minz maxz res 1024 true failKeys store).1.status = 400 ∧
    (ngmeta width height minz maxz res 1024 true failKeys store).2.lookup
        "neuroglancer/jpeg/info" =
      some (create_meta width height minz maxz 1024 false res) := by
  have hm1 : "neuroglancer/jpeg/info" ∉ failKeys := by simpa using hjpeg
  have hm2 : "neuroglancer/raw/info" ∈ failKeys := by simpa using hraw
  simp [ngmeta, gcsUpload, hm1, hm2, errorResponse, List.lookup]

/-- Witness for C10: the raw-info upload fails, the jpeg-info descriptor is
already recorded. -/
theorem ngmeta_lossy_written_on_raw_failure_witness :
    (ngmeta 1 2 3 4 5 1024 true ["neuroglancer/raw/info"] []).1.status = 400 ∧
    (ngmeta 1 2 3 4 5 1024 true ["neuroglancer/raw/info"] []).2.lookup
        "neuroglancer/jpeg/info" = some (create_meta 1 2 3 4 1024 false 5) :=
  ngmeta_lossy_written_on_raw_failure 1 2 3 4 5 ["neuroglancer/raw/info"] [] rfl rfl

end Emwrite
